import Mathlib

/-!
Verification development for the `hashtree` repository (`src/tree.rs`).

The Rust code builds a Merkle tree: `HashTree::from_data` splits a byte
stream into `block_size`-sized chunks, hashes each chunk with
`sha2::Sha256`, converts the raw digest bytes to a `String` via
`String::from_utf8`, pads an odd leaf level by duplicating the last node,
and then `HashTree::build` pairs nodes level by level, hashing the
`format!("{:x?}{:x?}", ..)` rendering of the two children's hash strings.

We model bytes as `Nat` (values < 256 on all real inputs), byte strings as
`List Nat`, and machine integers as `Nat` with explicit `% 2^32` where
overflow matters.  Rust `String`s are modelled by their UTF-8 byte
sequences, so Rust string equality is `List Nat` equality.  Fallible
steps return `Except`; the `.unwrap()`-on-`None` panic in `build` and the
unbounded level recursion are modelled by a distinguished error and an
explicit fuel parameter respectively.
-/

namespace Hashtree

/-- Truncation to 32 bits, the width of SHA-256 words. -/
def w32 (x : Nat) : Nat := x % 4294967296

/-- 32-bit right rotation (`x.rotate_right(n)` for `n ≤ 32`). -/
def rotr (n x : Nat) : Nat := w32 ((x >>> n) ||| (x <<< (32 - n)))

/-- SHA-256 `Ch` function; the complement is taken within 32 bits. -/
def ch32 (x y z : Nat) : Nat := (x &&& y) ^^^ ((x ^^^ 4294967295) &&& z)

/-- SHA-256 `Maj` function. -/
def maj32 (x y z : Nat) : Nat := (x &&& y) ^^^ (x &&& z) ^^^ (y &&& z)

/-- SHA-256 big sigma 0. -/
def bigSigma0 (x : Nat) : Nat := rotr 2 x ^^^ rotr 13 x ^^^ rotr 22 x

/-- SHA-256 big sigma 1. -/
def bigSigma1 (x : Nat) : Nat := rotr 6 x ^^^ rotr 11 x ^^^ rotr 25 x

/-- SHA-256 small sigma 0. -/
def smallSigma0 (x : Nat) : Nat := rotr 7 x ^^^ rotr 18 x ^^^ (x >>> 3)

/-- SHA-256 small sigma 1. -/
def smallSigma1 (x : Nat) : Nat := rotr 17 x ^^^ rotr 19 x ^^^ (x >>> 10)

/-- The 64 SHA-256 round constants (FIPS 180-4, written in decimal). -/
def k256 : List Nat :=
  [1116352408, 1899447441, 3049323471, 3921009573, 961987163, 1508970993,
   2453635748, 2870763221, 3624381080, 310598401, 607225278, 1426881987,
   1925078388, 2162078206, 2614888103, 3248222580, 3835390401, 4022224774,
   264347078, 604807628, 770255983, 1249150122, 1555081692, 1996064986,
   2554220882, 2821834349, 2952996808, 3210313671, 3336571891, 3584528711,
   113926993, 338241895, 666307205, 773529912, 1294757372, 1396182291,
   1695183700, 1986661051, 2177026350, 2456956037, 2730485921, 2820302411,
   3259730800, 3345764771, 3516065817, 3600352804, 4094571909, 275423344,
   430227734, 506948616, 659060556, 883997877, 958139571, 1322822218,
   1537002063, 1747873779, 1955562222, 2024104815, 2227730452, 2361852424,
   2428436474, 2756734187, 3204031479, 3329325298]

/-- The SHA-256 initial hash state (FIPS 180-4, written in decimal). -/
def h256 : List Nat :=
  [1779033703, 3144134277, 1013904242, 2773480762,
   1359893119, 2600822924, 528734635, 1541459225]

/-- Big-endian 8-byte encoding of the bit length of a message of `L` bytes. -/
def lenBytes64 (L : Nat) : List Nat :=
  (List.range 8).map (fun i => ((8 * L) >>> (8 * (7 - i))) % 256)

/-- SHA-256 padding: append `0x80`, zero bytes to 56 mod 64, then the bit length. -/
def padMessage (msg : List Nat) : List Nat :=
  let z := (64 + 56 - ((msg.length + 1) % 64)) % 64
  msg ++ 0x80 :: (List.replicate z 0 ++ lenBytes64 msg.length)

/-- Group bytes into big-endian 32-bit words (input length a multiple of 4). -/
def bytesToWords : List Nat → List Nat
  | b0 :: b1 :: b2 :: b3 :: rest =>
      ((b0 <<< 24) ||| (b1 <<< 16) ||| (b2 <<< 8) ||| b3) :: bytesToWords rest
  | _ => []

/-- Extend the 16 message-schedule words to 64. -/
def extendWords (ws : List Nat) : List Nat :=
  (List.range 48).foldl
    (fun acc _ =>
      let t := acc.length
      acc ++ [w32 (smallSigma1 (acc.getD (t - 2) 0) + acc.getD (t - 7) 0 +
                   smallSigma0 (acc.getD (t - 15) 0) + acc.getD (t - 16) 0)])
    ws

/-- One SHA-256 compression round on the 8-word working state. -/
def compressStep (ws : List Nat) (st : List Nat) (i : Nat) : List Nat :=
  let a := st.getD 0 0
  let b := st.getD 1 0
  let c := st.getD 2 0
  let e := st.getD 4 0
  let t1 := w32 (st.getD 7 0 + bigSigma1 e + ch32 e (st.getD 5 0) (st.getD 6 0) +
                 k256.getD i 0 + ws.getD i 0)
  let t2 := w32 (bigSigma0 a + maj32 a b c)
  [w32 (t1 + t2), a, b, c, w32 (st.getD 3 0 + t1), e, st.getD 5 0, st.getD 6 0]

/-- Compress one 64-byte block into the running hash state. -/
def compressBlock (hs : List Nat) (block : List Nat) : List Nat :=
  let ws := extendWords (bytesToWords block)
  let st := (List.range 64).foldl (compressStep ws) hs
  List.zipWith (fun x y => w32 (x + y)) hs st

/-- Split a padded message into 64-byte blocks; the fuel argument is the
list length, which always suffices. -/
def blocks64 : Nat → List Nat → List (List Nat)
  | 0, _ => []
  | _ + 1, [] => []
  | fuel + 1, b :: rest => (b :: rest).take 64 :: blocks64 fuel ((b :: rest).drop 64)

/-- Big-endian bytes of a 32-bit word. -/
def wordToBytes (w : Nat) : List Nat :=
  [(w >>> 24) % 256, (w >>> 16) % 256, (w >>> 8) % 256, w % 256]

/-- The SHA-256 digest (32 raw bytes) of a byte sequence.  This models the
`sha2::Sha256` hasher used throughout `tree.rs` (`hasher.update(..)`
followed by `hasher.finalize().to_vec()`). -/
def sha256 (msg : List Nat) : List Nat :=
  let padded := padMessage msg
  let hs := (blocks64 padded.length padded).foldl compressBlock h256
  (hs.map wordToBytes).flatten

/-- The errors `from_data`/`build` can surface in the model.  The Rust code
returns `Box<dyn Error>`: `utf8Invalid` models the `FromUtf8Error` from
`String::from_utf8(..)?`; `unwrapNone` models the panic of
`.pop_front().unwrap()` on an empty `VecDeque`; `outOfFuel` is reported
when the explicit fuel for `build`'s level recursion runs out, so a result
of `outOfFuel` for every fuel value means the Rust recursion never
terminates. -/
inductive TreeError where
  | utf8Invalid
  | unwrapNone
  | outOfFuel
deriving DecidableEq, Repr

/-- Is a byte a UTF-8 continuation byte (`0b10xxxxxx`)? -/
def isCont (b : Nat) : Bool := decide (0x80 ≤ b) && decide (b ≤ 0xbf)

/-- UTF-8 validity of a byte sequence (RFC 3629: overlong encodings,
surrogates and code points above U+10FFFF are rejected), as checked by
Rust's `String::from_utf8`. -/
def utf8Valid : List Nat → Bool
  | [] => true
  | b :: rest =>
    if b ≤ 0x7f then utf8Valid rest
    else if b < 0xc2 then false
    else if b ≤ 0xdf then
      match rest with
      | c1 :: rest2 => isCont c1 && utf8Valid rest2
      | [] => false
    else if b ≤ 0xef then
      match rest with
      | c1 :: c2 :: rest2 =>
        isCont c1 && isCont c2 &&
        (decide (b ≠ 0xe0) || decide (0xa0 ≤ c1)) &&
        (decide (b ≠ 0xed) || decide (c1 ≤ 0x9f)) &&
        utf8Valid rest2
      | _ => false
    else if b ≤ 0xf4 then
      match rest with
      | c1 :: c2 :: c3 :: rest2 =>
        isCont c1 && isCont c2 && isCont c3 &&
        (decide (b ≠ 0xf0) || decide (0x90 ≤ c1)) &&
        (decide (b ≠ 0xf4) || decide (c1 ≤ 0x8f)) &&
        utf8Valid rest2
      | _ => false
    else false

/-- Model of `String::from_utf8(bytes)?`: the resulting Rust `String` is
identified with its byte sequence; invalid UTF-8 gives the error the `?`
operator propagates. -/
def string_from_utf8 (bs : List Nat) : Except TreeError (List Nat) :=
  if utf8Valid bs then .ok bs else .error .utf8Invalid

/-- Lowercase hexadecimal digit bytes of `n ≤ 255`, without leading zeros. -/
def lowerHex (n : Nat) : List Nat :=
  let digit := fun m => if m < 10 then 0x30 + m else 0x57 + m
  if n < 16 then [digit n] else [digit (n / 16), digit (n % 16)]

/-- One byte of a string under Rust's `Debug`-escaping for `str` (as used
by `format!("{:x?}", s)`): `"` and `\` are backslash-escaped, tab, newline
and carriage return use their short escapes, other ASCII control bytes
become `\u{..}` with lowercase hex.  Printable bytes pass through
unchanged; bytes ≥ 0x80 (parts of printable non-ASCII characters) are
also passed through — the theorems below only apply this to ASCII
arguments, where the model is exact. -/
def escByte (b : Nat) : List Nat :=
  if b = 0x22 then [0x5c, 0x22]
  else if b = 0x5c then [0x5c, 0x5c]
  else if b = 0x09 then [0x5c, 0x74]
  else if b = 0x0a then [0x5c, 0x6e]
  else if b = 0x0d then [0x5c, 0x72]
  else if b < 0x20 ∨ b = 0x7f then [0x5c, 0x75, 0x7b] ++ lowerHex b ++ [0x7d]
  else [b]

/-- Model of `format!("{:x?}", s)` for a Rust `String` `s`: the debug
rendering wraps the escaped contents in double quotes (the `x` flag only
affects integer formatting, not the quoting). -/
def fmt_x_debug (s : List Nat) : List Nat :=
  0x22 :: ((s.map escByte).flatten ++ [0x22])

/-- A node of the `HashTree` (`struct Node` in `tree.rs`).  `hash` is the
Rust `String` holding the digest, modelled by its bytes; `left`/`right`
are arena indices. -/
structure Node where
  hash : List Nat
  index : Nat
  left : Option Nat
  right : Option Nat
deriving DecidableEq, Repr

/-- The `HashTree` struct: the node arena (`VecDeque<Node>`, front to
back), the stored block count and the configured block size. -/
structure HashTree where
  nodes : List Node
  num_blocks : Nat
  block_size : Nat
deriving DecidableEq, Repr

/-- `HashTree::new(block_size)`: an empty tree. -/
def HashTree.new (block_size : Nat) : HashTree :=
  { nodes := [], num_blocks := 0, block_size := block_size }

/-- `VecDeque::back()`: the last element, if any. -/
def backOpt : List Node → Option Node
  | [] => none
  | [n] => some n
  | _ :: rest => backOpt rest

/-- `HashTree::is_empty`. -/
def HashTree.is_empty (t : HashTree) : Bool :=
  if t.nodes.length = 0 then true else false

/-- `HashTree::root_hash`: the hash of `self.nodes.back()`, if any. -/
def HashTree.root_hash (t : HashTree) : Option (List Nat) :=
  match backOpt t.nodes with
  | some root => some root.hash
  | none => none

/-- `HashTree::num_nodes`: the arena length.  (`HashTree::num_blocks` is
the field projection `HashTree.num_blocks` itself, exactly as in the
Rust accessor.) -/
def HashTree.num_nodes (t : HashTree) : Nat := t.nodes.length

/-- `Clone::clone` for `HashTree` (the derived clone copies the value). -/
def HashTree.clone (t : HashTree) : HashTree := t

/-- `PartialEq::eq` for `HashTree` (`tree.rs` lines 182-201), matching on
the two root hashes exactly as the Rust code does. -/
def HashTree.eq (t1 t2 : HashTree) : Bool :=
  match t1.root_hash with
  | none =>
    match t2.root_hash with
    | some _ => false
    | none => true
  | some my_root =>
    match t2.root_hash with
    | none => false
    | some other_root => my_root == other_root

/-- The chunking loop of `from_data`: each iteration reads up to
`block_size` bytes (`data.take(block_size).read_to_end(&mut buf)`), and a
zero-length read breaks the loop — which happens when the stream is
exhausted or `block_size = 0`.  The fuel argument makes the recursion
structural; `data.length + 1` steps always suffice. -/
def readChunksAux (block_size : Nat) : Nat → List Nat → List (List Nat)
  | 0, _ => []
  | fuel + 1, data =>
    let chunk := data.take block_size
    if chunk.length = 0 then []
    else chunk :: readChunksAux block_size fuel (data.drop block_size)

/-- All chunks `from_data` reads from a (finite) byte stream. -/
def readChunks (block_size : Nat) (data : List Nat) : List (List Nat) :=
  readChunksAux block_size (data.length + 1) data

/-- The leaf nodes `from_data` pushes: for the `i`-th chunk, the SHA-256
digest converted through `String::from_utf8(..)?`, with `left` and
`right` set to `None` and `index` the running counter. -/
def mkLeaves : Nat → List (List Nat) → Except TreeError (List Node)
  | _, [] => .ok []
  | i, c :: cs =>
    match string_from_utf8 (sha256 c) with
    | .error e => .error e
    | .ok h =>
      match mkLeaves (i + 1) cs with
      | .error e => .error e
      | .ok ns => .ok ({ hash := h, index := i, left := none, right := none } :: ns)

/-- The odd-count padding in `from_data` (lines 92-94): if the arena holds
an odd number of nodes, push a clone of the back node.  The `none` branch
is unreachable there (an odd length implies a nonempty deque); the Rust
`.unwrap()` cannot panic. -/
def padOdd (nodes : List Node) : List Node :=
  if nodes.length % 2 = 1 then
    match backOpt nodes with
    | some n => nodes ++ [n]
    | none => nodes
  else nodes

/-- The merged pre-image `build` hashes for a parent (line 111):
`format!("{:x?}{:x?}", n1.hash, n2.hash)` — the concatenated debug
renderings of the two children's hash strings, not the raw digest
bytes. -/
def merged_hash (h1 h2 : List Nat) : List Nat :=
  fmt_x_debug h1 ++ fmt_x_debug h2

/-- The parent digest `build` computes (lines 111-115): SHA-256 of the
merged debug-formatted pre-image. -/
def combine (h1 h2 : List Nat) : List Nat :=
  sha256 (merged_hash h1 h2)

/-- The `while nodes_to_process > 0` loop of `build` (lines 107-127).
Arguments: the loop counter `nodes_to_process`, the `unprocessed_nodes`
deque, the arena `self.nodes`, and the `parents` deque.  Each iteration
pops two nodes (popping an empty deque is the `.unwrap()` panic,
modelled as `unwrapNone`), hashes the merged debug rendering, converts
it with `String::from_utf8(..)?`, appends the parent to both `parents`
and the arena, and decrements the counter by one. -/
def buildLoop : Nat → List Node → List Node → List Node →
    Except TreeError (List Node × List Node)
  | 0, _, selfNodes, parents => .ok (selfNodes, parents)
  | _ + 1, [], _, _ => .error .unwrapNone
  | _ + 1, [_], _, _ => .error .unwrapNone
  | ntp + 1, n1 :: n2 :: rest, selfNodes, parents =>
    match string_from_utf8 (combine n1.hash n2.hash) with
    | .error e => .error e
    | .ok parent_hash =>
      let parent : Node :=
        { hash := parent_hash, index := selfNodes.length,
          left := some n1.index, right := some n2.index }
      buildLoop ntp rest (selfNodes ++ [parent]) (parents ++ [parent])

/-- `HashTree::build` (lines 100-130): if the unprocessed level has
exactly one node it is the root and the function returns; otherwise the
loop produces the parent level, which is recursively built.  The
recursion has no decreasing measure in the source (a zero-length level
recurses on a zero-length level), so the model carries fuel; exhausting
it for every fuel value corresponds to non-termination of the Rust
code. -/
def build : Nat → List Node → List Node → Except TreeError (List Node)
  | 0, _, _ => .error .outOfFuel
  | fuel + 1, selfNodes, unprocessed =>
    if unprocessed.length = 1 then .ok selfNodes
    else
      match buildLoop unprocessed.length unprocessed selfNodes [] with
      | .error e => .error e
      | .ok (sn, parents) => build fuel sn parents

/-- `HashTree::from_data` (lines 71-98): push a leaf per chunk, pad an
odd arena with a clone of the last node, then run `build` on a clone of
the arena.  The `num_blocks` field is never assigned anywhere in
`from_data` or `build`, exactly as in the source. -/
def HashTree.from_data (t : HashTree) (data : List Nat) (fuel : Nat) :
    Except TreeError HashTree :=
  match mkLeaves 0 (readChunks t.block_size data) with
  | .error e => .error e
  | .ok leaves =>
    let nodes2 := padOdd (t.nodes ++ leaves)
    match build fuel nodes2 nodes2 with
    | .error e => .error e
    | .ok finalNodes => .ok { t with nodes := finalNodes }

/-- Is an `Except` result a success? -/
def exceptIsOk : Except TreeError HashTree → Bool
  | .ok _ => true
  | .error _ => false

/-- `build` on an empty level recurses on an empty parent level forever:
no amount of fuel produces a result. -/
lemma build_nil (fuel : Nat) : ∀ sn : List Node, build fuel sn [] = .error .outOfFuel := by
  induction fuel with
  | zero => intro sn; rfl
  | succ f ih => intro sn; exact ih sn

/-- The pairing loop decrements its counter by one per two popped nodes,
so whenever fewer than `2 * nodes_to_process` nodes are available it ends
in an error (the unwrap panic, unless a UTF-8 error strikes first). -/
lemma buildLoop_err : ∀ (ntp : Nat) (unp sn ps : List Node),
    unp.length < 2 * ntp → ∃ e, buildLoop ntp unp sn ps = .error e := by
  intro ntp
  induction ntp with
  | zero => intro unp sn ps h; exact absurd h (by omega)
  | succ k ih =>
    intro unp sn ps h
    rcases unp with _ | ⟨n1, _ | ⟨n2, rest⟩⟩
    · exact ⟨.unwrapNone, rfl⟩
    · exact ⟨.unwrapNone, rfl⟩
    · cases hs : string_from_utf8 (combine n1.hash n2.hash) with
      | error e => exact ⟨e, by simp only [buildLoop, hs]⟩
      | ok ph =>
        have hlen : rest.length < 2 * k := by
          simp only [List.length_cons] at h; omega
        obtain ⟨e, he⟩ := ih rest
          (sn ++ [{ hash := ph, index := sn.length,
                    left := some n1.index, right := some n2.index }])
          (ps ++ [{ hash := ph, index := sn.length,
                    left := some n1.index, right := some n2.index }]) hlen
        exact ⟨e, by simp only [buildLoop, hs]; exact he⟩

/-- `build` succeeds only if the level passed to it has exactly one node;
any other level count ends in an error for every fuel value. -/
lemma build_err : ∀ (fuel : Nat) (sn unp : List Node),
    unp.length ≠ 1 → ∃ e, build fuel sn unp = .error e := by
  intro fuel
  induction fuel with
  | zero => intro sn unp _; exact ⟨.outOfFuel, rfl⟩
  | succ f _ =>
    intro sn unp h
    rcases unp with _ | ⟨n1, rest⟩
    · exact ⟨.outOfFuel, build_nil (f + 1) sn⟩
    · have hlen : (n1 :: rest).length < 2 * (n1 :: rest).length := by
        simp only [List.length_cons]; omega
      obtain ⟨e, he⟩ := buildLoop_err (n1 :: rest).length (n1 :: rest) sn [] hlen
      exact ⟨e, by simp only [build, if_neg h, he]⟩

/-- A nonempty deque has a back element. -/
lemma backOpt_cons (n : Node) (ns : List Node) : (backOpt (n :: ns)).isSome = true := by
  induction ns generalizing n with
  | nil => rfl
  | cons m rest ih => exact ih m

/-- The odd-count padding always leaves an even number of nodes. -/
lemma padOdd_length_even (ns : List Node) : (padOdd ns).length % 2 = 0 := by
  unfold padOdd
  by_cases h : ns.length % 2 = 1
  · rw [if_pos h]
    rcases ns with _ | ⟨n, rest⟩
    · simp at h
    · have hs := backOpt_cons n rest
      cases hb : backOpt (n :: rest) with
      | none => rw [hb] at hs; simp at hs
      | some m =>
        show ((n :: rest) ++ [m]).length % 2 = 0
        simp only [List.length_append, List.length_cons, List.length_nil] at h ⊢
        omega
  · rw [if_neg h]; omega

/-- `from_data` can never return a tree: after the odd-count padding the
leaf level is even, so `build` either errors or runs out of any amount of
fuel. -/
lemma from_data_err (t : HashTree) (data : List Nat) (fuel : Nat) :
    ∃ e, t.from_data data fuel = .error e := by
  unfold HashTree.from_data
  cases hm : mkLeaves 0 (readChunks t.block_size data) with
  | error e => exact ⟨e, rfl⟩
  | ok leaves =>
    have hne : (padOdd (t.nodes ++ leaves)).length ≠ 1 := by
      have h := padOdd_length_even (t.nodes ++ leaves)
      omega
    obtain ⟨e, he⟩ := build_err fuel (padOdd (t.nodes ++ leaves)) (padOdd (t.nodes ++ leaves)) hne
    refine ⟨e, ?_⟩
    show (match build fuel (padOdd (t.nodes ++ leaves)) (padOdd (t.nodes ++ leaves)) with
          | .error e => (.error e : Except TreeError HashTree)
          | .ok finalNodes => .ok { t with nodes := finalNodes }) = .error e
    rw [he]

set_option maxRecDepth 20000

/-- C1: the claim states that a parent's digest is
`hash(left.hash_bytes ++ right.hash_bytes)`.  In the code the parent
digest (lines 111-115 of `tree.rs`) is `combine h1 h2 = sha256
(fmt_x_debug h1 ++ fmt_x_debug h2)`: the children's hash strings are
debug-formatted (quote-wrapped) before hashing.  At children digests
"a" (`[0x61]`) and "b" (`[0x62]`) the hashed pre-image is
`"a""b"` = `[0x22,0x61,0x22,0x22,0x62,0x22]`, not `[0x61,0x62]`, and the
resulting parent digest differs from the digest the claim requires. -/
theorem c1_combine_hashes_debug_format_not_raw_concat :
    merged_hash [0x61] [0x62] = [0x22, 0x61, 0x22, 0x22, 0x62, 0x22] ∧
    (combine [0x61] [0x62] == sha256 ([0x61] ++ [0x62])) = false := by
  exact ⟨rfl, by rfl⟩

/-- C2: the claim (and the doc example on `from_data` itself) says a
2-block input yields a tree with 3 nodes.  On the doc example's own
input — data `[0x00, 0x01]`, `block_size = 1` — `from_data` fails with
the `FromUtf8Error` from `String::from_utf8` on the first leaf digest
(SHA-256 of `[0x00]` starts `6e 34 0b 9c`, which is not valid UTF-8)
for every fuel value, so no successfully built tree with `n ≥ 1` blocks
exists and the `num_nodes` law is never realized. -/
theorem c2_doctest_two_block_input_fails :
    ∀ fuel : Nat, (HashTree.new 1).from_data [0x00, 0x01] fuel = .error .utf8Invalid := by
  intro fuel
  rfl

/-- C3: the claim says construction terminates on every finite stream,
in particular on the empty stream with an empty tree.  On the empty
stream the leaf level is empty, and `build` on a zero-length level
enters `build(parents)` with `parents` again empty: the model reports
fuel exhaustion no matter how much fuel is supplied, i.e. the Rust
recursion never terminates. -/
theorem c3_empty_stream_never_terminates :
    ∀ (block_size fuel : Nat),
      (HashTree.new block_size).from_data [] fuel = .error .outOfFuel := by
  intro bs fuel
  have h1 : readChunks bs [] = [] := by
    unfold readChunks readChunksAux
    simp
  unfold HashTree.from_data
  simp only [HashTree.new, h1]
  show (match build fuel (padOdd ([] ++ [])) (padOdd ([] ++ [])) with
        | .error e => (.error e : Except TreeError HashTree)
        | .ok finalNodes =>
          .ok { nodes := finalNodes, num_blocks := 0, block_size := bs }) = .error .outOfFuel
  rw [show padOdd ([] ++ []) = [] from rfl, build_nil fuel []]

/-- C4: the claim says a constructed tree has `num_blocks() = ceil(L/B)`.
No tree is ever constructed: for every block size, input and fuel,
`from_data` ends in an error (a UTF-8 failure, the unwrap panic in the
pairing loop, or the non-terminating recursion), never `Ok`.  Moreover
the `num_blocks` field is never assigned anywhere in `from_data`, so
even the in-progress value stays `0`. -/
theorem c4_no_tree_is_ever_constructed :
    ∀ (block_size : Nat) (data : List Nat) (fuel : Nat),
      exceptIsOk ((HashTree.new block_size).from_data data fuel) = false := by
  intro bs data fuel
  obtain ⟨e, he⟩ := from_data_err (HashTree.new bs) data fuel
  rw [he]
  rfl

/-- C5: the claim says that with a valid block size, an input that reads
without I/O error always produces a tree, hashing and combination being
total.  On the 1-byte input `[0x00]` with `block_size = 1` — no read
failure, nonzero block size — `from_data` returns the `FromUtf8Error`
raised while converting the first leaf's raw digest bytes to a `String`:
an error that is neither an input error nor a configuration error. -/
theorem c5_non_io_error_on_clean_input :
    ∀ fuel : Nat, (HashTree.new 1).from_data [0x00] fuel = .error .utf8Invalid := by
  intro fuel
  rfl

/-- C6: `PartialEq` for `HashTree` in `tree.rs` returns `true` exactly
when both trees are empty, or both are non-empty and their root hash
strings are byte-equal; consequently every tree equals its clone. -/
theorem c6_eq_iff_both_empty_or_roots_byte_equal :
    ∀ t1 t2 : HashTree,
      HashTree.eq t1 t2 =
        ((t1.nodes.isEmpty && t2.nodes.isEmpty) ||
         (!t1.nodes.isEmpty && !t2.nodes.isEmpty && (t1.root_hash == t2.root_hash))) ∧
      HashTree.eq t1 (HashTree.clone t1) = true := by
  intro t1 t2
  obtain ⟨ns1, nb1, bs1⟩ := t1
  obtain ⟨ns2, nb2, bs2⟩ := t2
  constructor
  · rcases ns1 with _ | ⟨n1, r1⟩ <;> rcases ns2 with _ | ⟨n2, r2⟩
    · rfl
    · obtain ⟨m2, hm2⟩ := Option.isSome_iff_exists.mp (backOpt_cons n2 r2)
      simp [HashTree.eq, HashTree.root_hash, backOpt, hm2]
    · obtain ⟨m1, hm1⟩ := Option.isSome_iff_exists.mp (backOpt_cons n1 r1)
      simp [HashTree.eq, HashTree.root_hash, backOpt, hm1]
    · obtain ⟨m1, hm1⟩ := Option.isSome_iff_exists.mp (backOpt_cons n1 r1)
      obtain ⟨m2, hm2⟩ := Option.isSome_iff_exists.mp (backOpt_cons n2 r2)
      simp [HashTree.eq, HashTree.root_hash, hm1, hm2]
  · rcases ns1 with _ | ⟨n1, r1⟩
    · rfl
    · obtain ⟨m1, hm1⟩ := Option.isSome_iff_exists.mp (backOpt_cons n1 r1)
      simp [HashTree.eq, HashTree.clone, HashTree.root_hash, hm1]

/-- C7: the claim says every odd level (of more than one node) is padded
with one duplicate of its last node.  In the code the only duplication
is the one `from_data` applies to the leaf level before `build` — and it
also fires for a single leaf, which the claim's "greater than 1"
excludes — while `build` itself never pads: on a 3-node interior level
the pairing loop hashes the first pair, fails the UTF-8 conversion of
the parent digest (and with textual digests would hit the
`.unwrap()` panic on the empty deque), instead of duplicating the last
node. -/
theorem c7_padding_only_before_build :
    padOdd [{ hash := [0x61], index := 0, left := none, right := none }] =
      [{ hash := [0x61], index := 0, left := none, right := none },
       { hash := [0x61], index := 0, left := none, right := none }] ∧
    build 9
      [{ hash := [0x61], index := 0, left := none, right := none },
       { hash := [0x62], index := 1, left := none, right := none },
       { hash := [0x63], index := 2, left := none, right := none }]
      [{ hash := [0x61], index := 0, left := none, right := none },
       { hash := [0x62], index := 1, left := none, right := none },
       { hash := [0x63], index := 2, left := none, right := none }] =
      .error .utf8Invalid := by
  exact ⟨rfl, by rfl⟩

/-- C8: the claim says `block_size == 0` is rejected before any read.
The code contains no validation at all: with `block_size = 0` the
chunking loop's first `take(0)` read returns zero bytes, the leaf level
is empty, and `build` recurses forever on empty levels — for the 1-byte
input shown here the model reports fuel exhaustion for every fuel value
instead of any configuration error. -/
theorem c8_zero_block_size_not_rejected :
    ∀ fuel : Nat, (HashTree.new 0).from_data [0x01] fuel = .error .outOfFuel := by
  intro fuel
  have key : (HashTree.new 0).from_data [0x01] fuel =
      match build fuel [] [] with
      | .error e => .error e
      | .ok finalNodes => .ok { HashTree.new 0 with nodes := finalNodes } := rfl
  rw [key, build_nil fuel []]

/-- C9: the claim describes the arena layout of every non-empty built
tree.  For `block_size = 4096` (the crate's example configuration) and
every input and fuel value, `from_data` never returns a tree, so the
claimed layout never materializes — and the `num_blocks` bound that
delimits the claimed leaf segment is never assigned in the code. -/
theorem c9_built_arena_never_materializes :
    ∀ (data : List Nat) (fuel : Nat),
      exceptIsOk ((HashTree.new 4096).from_data data fuel) = false := by
  intro data fuel
  obtain ⟨e, he⟩ := from_data_err (HashTree.new 4096) data fuel
  rw [he]
  rfl

/-- C10: a tree constructed by `HashTree::new(block_size)` alone is empty
at the public interface: `is_empty()` is `true`, `root_hash()` is
`None`, and `num_nodes()` and `num_blocks()` are both `0`. -/
theorem c10_new_tree_is_empty :
    ∀ block_size : Nat,
      (HashTree.new block_size).is_empty = true ∧
      (HashTree.new block_size).root_hash = none ∧
      (HashTree.new block_size).num_nodes = 0 ∧
      (HashTree.new block_size).num_blocks = 0 := by
  intro bs
  exact ⟨rfl, rfl, rfl, rfl⟩

end Hashtree
